import Mathlib

/-!
# libspark — verification of the block-validation engine and the
# cascaded second-order-section (biquad) IIR filter kernel

Shallow embedding of `src/lib/block.c`, `src/include/spark/block.h` and
`src/lib/iir-filter/iir_sosfilt_f32.c`.

Modelling conventions:
* `uint32_t` values (flags, counts, sizes, versions) are `Nat`; every use in
  the embedded code is a mask, a comparison or an equality, none of which can
  overflow, so no `% 2^32` is needed.
* C pointers that are only tested for NULL are `Nat` addresses (`0` = NULL)
  inside descriptors, and `Option` of a memory function for data pointers.
* `float` arithmetic is kept abstract: the kernel is parameterised by an
  `Arith α` bundle of the binary `+` and `*` used by the C code, so every
  theorem about the computation structure holds for any interpretation of
  single-precision arithmetic.
* Flat arrays accessed through moving cursors are functions `Nat → α`
  together with explicit integer offsets.
-/

namespace Spark

/-! ## Flag codec (`src/include/spark/block.h`) -/

def SPARK_FMT_INVALID : Nat := 0x00
def SPARK_FMT_I16 : Nat := 0x01
def SPARK_FMT_I32 : Nat := 0x02
def SPARK_FMT_F32 : Nat := 0x03
def SPARK_FMT_F64 : Nat := 0x04
def SPARK_FMT_MASK : Nat := 0x0F

def SPARK_LAYOUT_INVALID : Nat := 0x0 <<< 4
def SPARK_LAYOUT_INTERLEAVED : Nat := 0x1 <<< 4
def SPARK_LAYOUT_PLANAR : Nat := 0x2 <<< 4
def SPARK_LAYOUT_MASK : Nat := 0x0F <<< 4

def SPARK_BLOCK_INVALID : Nat := 0
def SPARK_BLOCK_PROCESS : Nat := 0x1 <<< 8
def SPARK_BLOCK_CONVERT : Nat := 0x2 <<< 8
def SPARK_BLOCK_SOURCE : Nat := 0x3 <<< 8
def SPARK_BLOCK_SINK : Nat := 0x4 <<< 8
def SPARK_BLOCK_TYPE_MASK : Nat := 0x7 <<< 8

def SPARK_NOERROR : Nat := 0
def SPARK_ERR_INVALID_PARAM : Nat := 1
def SPARK_ERR_INVALID_SIZE : Nat := 2
def SPARK_ERR_INVALID_ABI : Nat := 3
def SPARK_ERR_INVALID_INPUT : Nat := 4
def SPARK_ERR_INVALID_OUTPUT : Nat := 5
def SPARK_ERR_INVALID_BLOCK : Nat := 6

def spark_buffer_get_layout (flags : Nat) : Nat := flags &&& SPARK_LAYOUT_MASK

def spark_buffer_get_format (flags : Nat) : Nat := flags &&& SPARK_FMT_MASK

def spark_block_get_type (flags : Nat) : Nat := flags &&& SPARK_BLOCK_TYPE_MASK

/-! ## Descriptors -/

/-- `spark_buffer_t`: base pointer (an address, `0` = NULL), channel count,
frame count, packed format/layout flags. -/
structure spark_buffer_t where
  base : Nat
  channels : Nat
  frames : Nat
  flags : Nat
deriving DecidableEq

/-- `spark_block_t`: ABI tag, declared structure size, input and output
buffer descriptors. -/
structure spark_block_t where
  abi_version : Nat
  struct_size : Nat
  input : spark_buffer_t
  output : spark_buffer_t
deriving DecidableEq

/-- Modelled from the spec: `SPARK_ABI_VERSION` lives in the generated header
`<spark/version.h>`, which is not under `src/`; validation only compares the
block's tag against it for exact equality, so the concrete value is
immaterial.  Any fixed constant models it faithfully. -/
def SPARK_ABI_VERSION : Nat := 1

/-- `sizeof(spark_block_t)` on an LP64 platform: `4 + 4` header bytes plus two
24-byte buffer descriptors (8-byte base pointer + three 4-byte words, padded
to pointer alignment). -/
def sizeof_spark_block_t : Nat := 56

/-- `spark_buffer_is_similar` as called from `spark_block_validate`: the C
helper's pointer-identity and NULL shortcuts can never fire there, because the
caller always passes the addresses of the two distinct `input`/`output` fields
of a non-NULL block, so only the final field comparison remains. -/
def spark_buffer_is_similar (a b : spark_buffer_t) : Bool :=
  (spark_buffer_get_format a.flags == spark_buffer_get_format b.flags) &&
  (spark_buffer_get_layout a.flags == spark_buffer_get_layout b.flags) &&
  (a.channels == b.channels) && (a.frames == b.frames)

/-- `spark_buffer_is_valid`: non-NULL base and non-zero dimensions. -/
def spark_buffer_is_valid (buf : spark_buffer_t) : Bool :=
  (buf.base != 0) && (decide (0 < buf.channels)) && (decide (0 < buf.frames))

/-- `spark_buffer_check_type`: the buffer's format and layout bits equal the
required ones. -/
def spark_buffer_check_type (buf : spark_buffer_t) (fmt layout : Nat) : Bool :=
  (spark_buffer_get_format buf.flags == fmt) &&
  (spark_buffer_get_layout buf.flags == layout)

/-- `spark_block_validate` (`src/lib/block.c`).  The `p_block` argument is
`Option` to model the NULL check on the incoming pointer. -/
def spark_block_validate (p_block : Option spark_block_t) (flags : Nat) : Nat :=
  match p_block with
  | none => SPARK_ERR_INVALID_PARAM
  | some block =>
    if block.struct_size < sizeof_spark_block_t then SPARK_ERR_INVALID_SIZE
    else if block.abi_version != SPARK_ABI_VERSION then SPARK_ERR_INVALID_ABI
    else
      let req_fmt := spark_buffer_get_format flags
      let req_layout := spark_buffer_get_layout flags
      let block_type := spark_block_get_type flags
      if (req_fmt == SPARK_FMT_INVALID) || (req_layout == SPARK_LAYOUT_INVALID) ||
         (block_type == SPARK_BLOCK_INVALID) then SPARK_ERR_INVALID_PARAM
      else if block_type == SPARK_BLOCK_PROCESS then
        if !spark_buffer_is_similar block.input block.output then
          SPARK_ERR_INVALID_BLOCK
        else if !spark_buffer_is_valid block.input then SPARK_ERR_INVALID_INPUT
        else if !spark_buffer_is_valid block.output then SPARK_ERR_INVALID_OUTPUT
        else if !spark_buffer_check_type block.input req_fmt req_layout then
          SPARK_ERR_INVALID_INPUT
        else if !spark_buffer_check_type block.output req_fmt req_layout then
          SPARK_ERR_INVALID_OUTPUT
        else SPARK_NOERROR
      else if block_type == SPARK_BLOCK_CONVERT then
        if !spark_buffer_is_valid block.input then SPARK_ERR_INVALID_INPUT
        else if !spark_buffer_is_valid block.output then SPARK_ERR_INVALID_OUTPUT
        else if !spark_buffer_check_type block.input req_fmt req_layout then
          SPARK_ERR_INVALID_INPUT
        else SPARK_NOERROR
      else if block_type == SPARK_BLOCK_SOURCE then
        if !spark_buffer_is_valid block.output then SPARK_ERR_INVALID_OUTPUT
        else if !spark_buffer_check_type block.output req_fmt req_layout then
          SPARK_ERR_INVALID_OUTPUT
        else SPARK_NOERROR
      else if block_type == SPARK_BLOCK_SINK then
        if !spark_buffer_is_valid block.input then SPARK_ERR_INVALID_INPUT
        else if !spark_buffer_check_type block.input req_fmt req_layout then
          SPARK_ERR_INVALID_INPUT
        else SPARK_NOERROR
      else SPARK_ERR_INVALID_BLOCK

/-- The conjunction of the per-block-type checks of `spark_block_validate`
(the conditions of the branch selected by the block-type field all passing),
read off the corresponding `if` chains of `src/lib/block.c`. -/
def spark_block_type_ok (b : spark_block_t) (flags : Nat) : Bool :=
  let req_fmt := spark_buffer_get_format flags
  let req_layout := spark_buffer_get_layout flags
  let block_type := spark_block_get_type flags
  if block_type == SPARK_BLOCK_PROCESS then
    spark_buffer_is_similar b.input b.output && spark_buffer_is_valid b.input &&
    spark_buffer_is_valid b.output &&
    spark_buffer_check_type b.input req_fmt req_layout &&
    spark_buffer_check_type b.output req_fmt req_layout
  else if block_type == SPARK_BLOCK_CONVERT then
    spark_buffer_is_valid b.input && spark_buffer_is_valid b.output &&
    spark_buffer_check_type b.input req_fmt req_layout
  else if block_type == SPARK_BLOCK_SOURCE then
    spark_buffer_is_valid b.output &&
    spark_buffer_check_type b.output req_fmt req_layout
  else if block_type == SPARK_BLOCK_SINK then
    spark_buffer_is_valid b.input &&
    spark_buffer_check_type b.input req_fmt req_layout
  else false

/-- C4: the validation gates fire in order, first failure wins, with the exact
numeric codes: NULL block → 1; undersized `struct_size` → 2; ABI mismatch → 3;
invalid format/layout/block-type field in the required flags → 1; and the
result is 0 exactly when every gate and the selected block type's own checks
all pass. -/
theorem spark_block_validate_gate_order :
    (∀ flags, spark_block_validate none flags = SPARK_ERR_INVALID_PARAM) ∧
    (∀ b flags, b.struct_size < sizeof_spark_block_t →
      spark_block_validate (some b) flags = SPARK_ERR_INVALID_SIZE) ∧
    (∀ b flags, sizeof_spark_block_t ≤ b.struct_size →
      b.abi_version ≠ SPARK_ABI_VERSION →
      spark_block_validate (some b) flags = SPARK_ERR_INVALID_ABI) ∧
    (∀ b flags, sizeof_spark_block_t ≤ b.struct_size →
      b.abi_version = SPARK_ABI_VERSION →
      (spark_buffer_get_format flags = SPARK_FMT_INVALID ∨
       spark_buffer_get_layout flags = SPARK_LAYOUT_INVALID ∨
       spark_block_get_type flags = SPARK_BLOCK_INVALID) →
      spark_block_validate (some b) flags = SPARK_ERR_INVALID_PARAM) ∧
    (∀ b flags, spark_block_validate (some b) flags = SPARK_NOERROR ↔
      (sizeof_spark_block_t ≤ b.struct_size ∧
       b.abi_version = SPARK_ABI_VERSION ∧
       spark_buffer_get_format flags ≠ SPARK_FMT_INVALID ∧
       spark_buffer_get_layout flags ≠ SPARK_LAYOUT_INVALID ∧
       spark_block_get_type flags ≠ SPARK_BLOCK_INVALID ∧
       spark_block_type_ok b flags = true)) := by
  refine ⟨fun flags => rfl, ?_, ?_, ?_, ?_⟩
  · intro b flags h
    simp [spark_block_validate, h]
  · intro b flags h1 h2
    simp [spark_block_validate, Nat.not_lt.mpr h1, h2]
  · intro b flags h1 h2 h3
    rcases h3 with h | h | h <;>
      simp [spark_block_validate, Nat.not_lt.mpr h1, h2, h]
  · intro b flags
    by_cases hsz : b.struct_size < sizeof_spark_block_t
    · have hv : spark_block_validate (some b) flags = SPARK_ERR_INVALID_SIZE := by
        simp [spark_block_validate, hsz]
      rw [hv]
      exact iff_of_false (by decide) (fun h => absurd h.1 (by omega))
    by_cases habi : b.abi_version = SPARK_ABI_VERSION
    case neg =>
      have hv : spark_block_validate (some b) flags = SPARK_ERR_INVALID_ABI := by
        simp [spark_block_validate, hsz, habi]
      rw [hv]
      exact iff_of_false (by decide) (fun h => absurd h.2.1 habi)
    have hsz' : sizeof_spark_block_t ≤ b.struct_size := Nat.not_lt.mp hsz
    by_cases hf : spark_buffer_get_format flags = SPARK_FMT_INVALID
    · have hv : spark_block_validate (some b) flags = SPARK_ERR_INVALID_PARAM := by
        simp [spark_block_validate, hsz, habi, hf]
      rw [hv]
      exact iff_of_false (by decide) (fun h => absurd hf h.2.2.1)
    by_cases hl : spark_buffer_get_layout flags = SPARK_LAYOUT_INVALID
    · have hv : spark_block_validate (some b) flags = SPARK_ERR_INVALID_PARAM := by
        simp [spark_block_validate, hsz, habi, hl]
      rw [hv]
      exact iff_of_false (by decide) (fun h => absurd hl h.2.2.2.1)
    by_cases ht : spark_block_get_type flags = SPARK_BLOCK_INVALID
    · have hv : spark_block_validate (some b) flags = SPARK_ERR_INVALID_PARAM := by
        simp [spark_block_validate, hsz, habi, ht]
      rw [hv]
      exact iff_of_false (by decide) (fun h => absurd ht h.2.2.2.2.1)
    simp only [spark_block_validate, spark_block_type_ok, hsz, if_false, habi,
      bne_self_eq_false, Bool.false_eq_true, beq_iff_eq, hf, hl, ht]
    by_cases hp : spark_block_get_type flags = SPARK_BLOCK_PROCESS
    · by_cases c1 : spark_buffer_is_similar b.input b.output <;>
      by_cases c2 : spark_buffer_is_valid b.input <;>
      by_cases c3 : spark_buffer_is_valid b.output <;>
      by_cases c4 : spark_buffer_check_type b.input (spark_buffer_get_format flags)
        (spark_buffer_get_layout flags) <;>
      by_cases c5 : spark_buffer_check_type b.output (spark_buffer_get_format flags)
        (spark_buffer_get_layout flags) <;>
        simp_all [SPARK_NOERROR, SPARK_ERR_INVALID_BLOCK, SPARK_ERR_INVALID_INPUT,
          SPARK_ERR_INVALID_OUTPUT, hsz']
    by_cases hc : spark_block_get_type flags = SPARK_BLOCK_CONVERT
    · by_cases c2 : spark_buffer_is_valid b.input <;>
      by_cases c3 : spark_buffer_is_valid b.output <;>
      by_cases c4 : spark_buffer_check_type b.input (spark_buffer_get_format flags)
        (spark_buffer_get_layout flags) <;>
        simp_all [SPARK_NOERROR, SPARK_ERR_INVALID_INPUT, SPARK_ERR_INVALID_OUTPUT,
          SPARK_BLOCK_PROCESS, SPARK_BLOCK_CONVERT, hsz']
    by_cases hsrc : spark_block_get_type flags = SPARK_BLOCK_SOURCE
    · by_cases c3 : spark_buffer_is_valid b.output <;>
      by_cases c5 : spark_buffer_check_type b.output (spark_buffer_get_format flags)
        (spark_buffer_get_layout flags) <;>
        simp_all [SPARK_NOERROR, SPARK_ERR_INVALID_OUTPUT, SPARK_BLOCK_PROCESS,
          SPARK_BLOCK_CONVERT, SPARK_BLOCK_SOURCE, hsz']
    by_cases hsink : spark_block_get_type flags = SPARK_BLOCK_SINK
    · by_cases c2 : spark_buffer_is_valid b.input <;>
      by_cases c4 : spark_buffer_check_type b.input (spark_buffer_get_format flags)
        (spark_buffer_get_layout flags) <;>
        simp_all [SPARK_NOERROR, SPARK_ERR_INVALID_INPUT, SPARK_BLOCK_PROCESS,
          SPARK_BLOCK_CONVERT, SPARK_BLOCK_SOURCE, SPARK_BLOCK_SINK, hsz']
    · simp_all [SPARK_NOERROR, SPARK_ERR_INVALID_BLOCK, SPARK_BLOCK_PROCESS,
        SPARK_BLOCK_CONVERT, SPARK_BLOCK_SOURCE, SPARK_BLOCK_SINK, hsz']

/-- C7: once the NULL/size/ABI/flags gates pass with block type Process, a
channel-count or frame-count disagreement between the input and output
descriptors makes validation return "invalid block" (code 6), even when both
buffers are individually valid and both carry the required format and
layout. -/
theorem process_shape_mismatch_is_invalid_block (b : spark_block_t) (flags : Nat)
    (hsz : sizeof_spark_block_t ≤ b.struct_size)
    (habi : b.abi_version = SPARK_ABI_VERSION)
    (hf : spark_buffer_get_format flags ≠ SPARK_FMT_INVALID)
    (hl : spark_buffer_get_layout flags ≠ SPARK_LAYOUT_INVALID)
    (hp : spark_block_get_type flags = SPARK_BLOCK_PROCESS)
    (hmm : b.input.channels ≠ b.output.channels ∨ b.input.frames ≠ b.output.frames)
    (_hvi : spark_buffer_is_valid b.input = true)
    (_hvo : spark_buffer_is_valid b.output = true)
    (_hti : spark_buffer_check_type b.input (spark_buffer_get_format flags)
      (spark_buffer_get_layout flags) = true)
    (_hto : spark_buffer_check_type b.output (spark_buffer_get_format flags)
      (spark_buffer_get_layout flags) = true) :
    spark_block_validate (some b) flags = SPARK_ERR_INVALID_BLOCK := by
  have hsim : spark_buffer_is_similar b.input b.output = false := by
    rcases hmm with h | h <;> simp [spark_buffer_is_similar, h]
  simp [spark_block_validate, Nat.not_lt.mpr hsz, habi, hf, hl, hp, hsim,
    SPARK_BLOCK_PROCESS, SPARK_BLOCK_INVALID]

/-- C8: once the gates pass with block type Convert, validation succeeds
exactly when the input buffer is valid and carries the required format and
layout and the output buffer is valid; the output's format/layout and the two
frame counts are unconstrained. -/
theorem convert_validate_success_iff (b : spark_block_t) (flags : Nat)
    (hsz : sizeof_spark_block_t ≤ b.struct_size)
    (habi : b.abi_version = SPARK_ABI_VERSION)
    (hf : spark_buffer_get_format flags ≠ SPARK_FMT_INVALID)
    (hl : spark_buffer_get_layout flags ≠ SPARK_LAYOUT_INVALID)
    (hc : spark_block_get_type flags = SPARK_BLOCK_CONVERT) :
    (spark_block_validate (some b) flags = SPARK_NOERROR ↔
      (spark_buffer_is_valid b.input = true ∧
       spark_buffer_check_type b.input (spark_buffer_get_format flags)
         (spark_buffer_get_layout flags) = true ∧
       spark_buffer_is_valid b.output = true)) := by
  by_cases c1 : spark_buffer_is_valid b.input <;>
  by_cases c2 : spark_buffer_is_valid b.output <;>
  by_cases c3 : spark_buffer_check_type b.input (spark_buffer_get_format flags)
    (spark_buffer_get_layout flags) <;>
    simp_all [spark_block_validate, Nat.not_lt.mpr hsz, habi, hf, hl, hc,
      SPARK_BLOCK_PROCESS, SPARK_BLOCK_CONVERT, SPARK_BLOCK_INVALID,
      SPARK_NOERROR, SPARK_ERR_INVALID_INPUT, SPARK_ERR_INVALID_OUTPUT]

/-- C9: with block type Sink, the output descriptor never influences the
validation result; with block type Source, the input descriptor never
influences it. -/
theorem sink_source_ignore_unused_side :
    (∀ (b1 b2 : spark_block_t) (flags : Nat),
      spark_block_get_type flags = SPARK_BLOCK_SINK →
      b1.abi_version = b2.abi_version → b1.struct_size = b2.struct_size →
      b1.input = b2.input →
      spark_block_validate (some b1) flags = spark_block_validate (some b2) flags) ∧
    (∀ (b1 b2 : spark_block_t) (flags : Nat),
      spark_block_get_type flags = SPARK_BLOCK_SOURCE →
      b1.abi_version = b2.abi_version → b1.struct_size = b2.struct_size →
      b1.output = b2.output →
      spark_block_validate (some b1) flags = spark_block_validate (some b2) flags) := by
  constructor
  · intro b1 b2 flags hsink habi hss hin
    obtain ⟨a1, s1, i1, o1⟩ := b1
    obtain ⟨a2, s2, i2, o2⟩ := b2
    simp only at habi hss hin
    subst habi hss hin
    simp [spark_block_validate, hsink, SPARK_BLOCK_PROCESS, SPARK_BLOCK_CONVERT,
      SPARK_BLOCK_SOURCE, SPARK_BLOCK_SINK, SPARK_BLOCK_INVALID]
  · intro b1 b2 flags hsrc habi hss hout
    obtain ⟨a1, s1, i1, o1⟩ := b1
    obtain ⟨a2, s2, i2, o2⟩ := b2
    simp only at habi hss hout
    subst habi hss hout
    simp [spark_block_validate, hsrc, SPARK_BLOCK_PROCESS, SPARK_BLOCK_CONVERT,
      SPARK_BLOCK_SOURCE, SPARK_BLOCK_SINK, SPARK_BLOCK_INVALID]

/-- If a mask `m` is contained in a mask `M`, then agreement under `M`
implies agreement under `m`. -/
theorem land_mask_mono {M m f1 f2 : Nat} (hm : m &&& M = m)
    (h : f1 &&& M = f2 &&& M) : f1 &&& m = f2 &&& m := by
  apply Nat.eq_of_testBit_eq
  intro i
  have hmb := congrArg (fun x => Nat.testBit x i) hm
  have hb := congrArg (fun x => Nat.testBit x i) h
  simp only [Nat.testBit_land] at hmb hb ⊢
  cases hmi : Nat.testBit m i
  · simp
  · rw [hmi, Bool.true_and] at hmb
    rw [hmb] at hb
    simp only [Bool.and_true] at hb
    simp [hb]

/-- C10: `spark_block_validate` reads the required-flags word only through the
format (bits 0–3), layout (bits 4–7) and block-type (bits 8–10) fields, so any
two flag words agreeing on bits 0–10 validate identically. -/
theorem validate_ignores_high_flag_bits (ob : Option spark_block_t) (f1 f2 : Nat)
    (h : f1 &&& 0x7FF = f2 &&& 0x7FF) :
    spark_block_validate ob f1 = spark_block_validate ob f2 := by
  have hf : spark_buffer_get_format f1 = spark_buffer_get_format f2 :=
    land_mask_mono (by decide) h
  have hl : spark_buffer_get_layout f1 = spark_buffer_get_layout f2 :=
    land_mask_mono (by decide) h
  have ht : spark_block_get_type f1 = spark_block_get_type f2 :=
    land_mask_mono (by decide) h
  cases ob with
  | none => rfl
  | some b => simp only [spark_block_validate, hf, hl, ht]

/-! Concrete descriptors used to instantiate the validation theorems. -/

/-- A valid one-channel, one-frame, F32/planar buffer at a non-NULL address. -/
def bufF32P : spark_buffer_t := ⟨1, 1, 1, 0x23⟩

/-- Like `bufF32P` but with two channels. -/
def bufF32P2 : spark_buffer_t := ⟨1, 2, 1, 0x23⟩

/-- A valid I16/interleaved buffer with a different frame count. -/
def bufI16I7 : spark_buffer_t := ⟨1, 1, 7, 0x11⟩

/-- A correctly sized, current-ABI block with matching valid F32/planar
buffers. -/
def blkF32P : spark_block_t := ⟨SPARK_ABI_VERSION, sizeof_spark_block_t, bufF32P, bufF32P⟩

theorem spark_block_validate_gate_order_witness :
    spark_block_validate none 291 = SPARK_ERR_INVALID_PARAM ∧
    spark_block_validate (some ⟨SPARK_ABI_VERSION, 8, bufF32P, bufF32P⟩) 291 =
      SPARK_ERR_INVALID_SIZE ∧
    spark_block_validate (some ⟨2, sizeof_spark_block_t, bufF32P, bufF32P⟩) 291 =
      SPARK_ERR_INVALID_ABI ∧
    spark_block_validate (some blkF32P) 0 = SPARK_ERR_INVALID_PARAM ∧
    spark_block_validate (some blkF32P) 291 = SPARK_NOERROR :=
  ⟨spark_block_validate_gate_order.1 291,
   spark_block_validate_gate_order.2.1 _ 291 (by decide),
   spark_block_validate_gate_order.2.2.1 _ 291 (by decide) (by decide),
   spark_block_validate_gate_order.2.2.2.1 _ 0 (by decide) (by decide)
     (Or.inl (by decide)),
   (spark_block_validate_gate_order.2.2.2.2 blkF32P 291).mpr
     ⟨by decide, by decide, by decide, by decide, by decide, by decide⟩⟩

theorem process_shape_mismatch_is_invalid_block_witness :
    spark_block_validate
      (some ⟨SPARK_ABI_VERSION, sizeof_spark_block_t, bufF32P, bufF32P2⟩) 291 =
      SPARK_ERR_INVALID_BLOCK :=
  process_shape_mismatch_is_invalid_block _ 291 (by decide) (by decide)
    (by decide) (by decide) (by decide) (Or.inl (by decide)) (by decide)
    (by decide) (by decide) (by decide)

theorem convert_validate_success_iff_witness :
    spark_block_validate
      (some ⟨SPARK_ABI_VERSION, sizeof_spark_block_t, bufF32P, bufI16I7⟩) 547 =
      SPARK_NOERROR :=
  (convert_validate_success_iff _ 547 (by decide) (by decide) (by decide)
    (by decide) (by decide)).mpr ⟨by decide, by decide, by decide⟩

theorem sink_source_ignore_unused_side_witness :
    spark_block_validate (some blkF32P) 1059 =
      spark_block_validate
        (some ⟨SPARK_ABI_VERSION, sizeof_spark_block_t, bufF32P, ⟨0, 0, 0, 0⟩⟩) 1059 :=
  sink_source_ignore_unused_side.1 _ _ 1059 (by decide) rfl rfl rfl

theorem validate_ignores_high_flag_bits_witness :
    spark_block_validate (some blkF32P) 291 =
      spark_block_validate (some blkF32P) 1190179 :=
  validate_ignores_high_flag_bits (some blkF32P) 291 1190179 (by decide)

/-! ## Biquad cascade kernel (`src/lib/iir-filter/iir_sosfilt_f32.c`)

The kernel's `float` arithmetic is kept abstract: an `Arith α` packages the
`+` and `*` (and the literals `0.0f` and `1.0f`) used by the C code, so the
theorems below hold for any interpretation of IEEE single precision. -/

/-- The arithmetic operations the kernel applies to samples. -/
structure Arith (α : Type) where
  add : α → α → α
  mul : α → α → α
  zero : α
  one : α

/-- The concrete integer instance used to exercise the kernel theorems on
executable inputs. -/
def intArith : Arith Int := ⟨(· + ·), (· * ·), 0, 1⟩

/-- The sample loop of `biquad_process_f32`, with the coefficients and the two
running state values in registers, exactly in the C evaluation order:
`y = (b0*x) + s1; s1 = ((b1*x) + (a1*y)) + s2; s2 = (b2*x) + (a2*y);
output[i] = y`.  Returns the emitted samples (in order) and the final
`(s1, s2)`. -/
def biquadLoop (A : Arith α) (b0 b1 b2 a1 a2 : α) (s1 s2 : α) :
    List α → List α × α × α
  | [] => ([], s1, s2)
  | x :: xs =>
    let y := A.add (A.mul b0 x) s1
    let s1n := A.add (A.add (A.mul b1 x) (A.mul a1 y)) s2
    let s2n := A.add (A.mul b2 x) (A.mul a2 y)
    let r := biquadLoop A b0 b1 b2 a1 a2 s1n s2n xs
    (y :: r.1, r.2)

/-- `biquad_process_f32(coeff + cofs, state + sofs, output, input, frames)`:
loads the five coefficients and the two state words at the given offsets of
the flat arrays, runs the sample loop over `input` (the `output` array and the
`frames` count are modelled by the returned sample list, whose length is that
of `input`), and stores the final state back at `sofs`/`sofs + 1`. -/
def biquad_process_f32 (A : Arith α) (coeff : Nat → α) (cofs : Nat)
    (state : Nat → α) (sofs : Nat) (input : List α) : List α × (Nat → α) :=
  let r := biquadLoop A (coeff cofs) (coeff (cofs + 1)) (coeff (cofs + 2))
      (coeff (cofs + 3)) (coeff (cofs + 4)) (state sofs) (state (sofs + 1)) input
  (r.1, fun j => if j = sofs then r.2.1 else if j = sofs + 1 then r.2.2 else state j)

/-- The per-section recurrence exactly as the spec's §4.3 pseudo-code states
it, over the coefficient quintuple `{b0, b1, b2, -a1, -a2}` (`na1`/`na2` are
the pre-negated feedback terms) and the state pair `{w1, w2}`:
`y = b0*x + w1; w1 = b1*x + (-a1)*y + w2; w2 = b2*x + (-a2)*y; emit y`. -/
def tdf2_spec_recurrence (A : Arith α) (b0 b1 b2 na1 na2 : α) :
    List α → α × α → List α × (α × α)
  | [], s => ([], s)
  | x :: xs, (w1, w2) =>
    let y := A.add (A.mul b0 x) w1
    let w1n := A.add (A.add (A.mul b1 x) (A.mul na1 y)) w2
    let w2n := A.add (A.mul b2 x) (A.mul na2 y)
    let r := tdf2_spec_recurrence A b0 b1 b2 na1 na2 xs (w1n, w2n)
    (y :: r.1, r.2)

theorem biquadLoop_eq_spec (A : Arith α) (b0 b1 b2 a1 a2 : α) (s1 s2 : α)
    (xs : List α) :
    biquadLoop A b0 b1 b2 a1 a2 s1 s2 xs =
      ((tdf2_spec_recurrence A b0 b1 b2 a1 a2 xs (s1, s2)).1,
       (tdf2_spec_recurrence A b0 b1 b2 a1 a2 xs (s1, s2)).2.1,
       (tdf2_spec_recurrence A b0 b1 b2 a1 a2 xs (s1, s2)).2.2) := by
  induction xs generalizing s1 s2 with
  | nil => rfl
  | cons x xs ih =>
    simp only [biquadLoop, tdf2_spec_recurrence, ih]

/-- C1: for every coefficient quintuple, initial state pair and finite input
sequence, one section of `biquad_process_f32` emits, in order, exactly the
samples of the spec's TDF-II recurrence, and after the run the two persistent
state words hold the recurrence's final `w1` and `w2`. -/
theorem biquad_process_f32_matches_spec (A : Arith α) (coeff state : Nat → α)
    (input : List α) :
    (biquad_process_f32 A coeff 0 state 0 input).1 =
      (tdf2_spec_recurrence A (coeff 0) (coeff 1) (coeff 2) (coeff 3) (coeff 4)
        input (state 0, state 1)).1 ∧
    (biquad_process_f32 A coeff 0 state 0 input).2 0 =
      (tdf2_spec_recurrence A (coeff 0) (coeff 1) (coeff 2) (coeff 3) (coeff 4)
        input (state 0, state 1)).2.1 ∧
    (biquad_process_f32 A coeff 0 state 0 input).2 1 =
      (tdf2_spec_recurrence A (coeff 0) (coeff 1) (coeff 2) (coeff 3) (coeff 4)
        input (state 0, state 1)).2.2 := by
  simp [biquad_process_f32, biquadLoop_eq_spec]

/-- Result of the per-channel stage loop: the channel's output plane, the
updated state array, and the final coefficient/state cursors. -/
structure StageResult (α : Type) where
  out : List α
  st : Nat → α
  cofs : Nat
  sofs : Nat

/-- The inner stage loop of `spark_sosfilt_f32` for one channel:
`biquad_process_f32(coeff, states, out, in, n_frames); coeff += 5;
states += 2; in = out;` repeated `n_stages` times.  `inPlane` is the channel's
input plane, `outPlane` the current contents of its output plane (returned
untouched when the stage count is zero, since the loop body then never
writes). -/
def stagesLoop (A : Arith α) (co : Nat → α) (st : Nat → α) (cofs sofs : Nat)
    (inPlane outPlane : List α) : Nat → StageResult α
  | 0 => ⟨outPlane, st, cofs, sofs⟩
  | n + 1 =>
    let r := biquad_process_f32 A co cofs st sofs inPlane
    stagesLoop A co r.2 (cofs + 5) (sofs + 2) r.1 r.1 n

/-- Result of the channel loop: all output planes, the updated state array,
and the final cursors. -/
structure ChanResult (α : Type) where
  outs : List (List α)
  st : Nat → α
  cofs : Nat
  sofs : Nat

/-- The outer channel loop of `spark_sosfilt_f32`: for each channel, the
coefficient cursor is reset to the array start when `SPARK_SOSFILT_SHARE_SOS`
is set, then the stage loop runs; the state cursor just keeps advancing.  The
planar input and output buffers are given as their lists of channel planes. -/
def channelsLoop (A : Arith α) (co : Nat → α) (st : Nat → α) (cofs sofs : Nat)
    (share : Bool) (nStages : Nat) :
    List (List α) → List (List α) → ChanResult α
  | ip :: ips, op :: ops =>
    let c0 := if share then 0 else cofs
    let r := stagesLoop A co st c0 sofs ip op nStages
    let rest := channelsLoop A co r.st r.cofs r.sofs share nStages ips ops
    ⟨r.out :: rest.outs, rest.st, rest.cofs, rest.sofs⟩
  | _, _ => ⟨[], st, cofs, sofs⟩

/-- A flat coefficient array holding, for every stage, the identity-filter
block `{b0 = 1, b1 = 0, b2 = 0, -a1 = 0, -a2 = 0}`. -/
def identityCoeffs (A : Arith α) : Nat → α :=
  fun i => if i % 5 = 0 then A.one else A.zero

theorem biquadLoop_identity (A : Arith α)
    (hone : ∀ x, A.mul A.one x = x) (hzero : ∀ x, A.mul A.zero x = A.zero)
    (haddz : ∀ x, A.add x A.zero = x) (xs : List α) :
    biquadLoop A A.one A.zero A.zero A.zero A.zero A.zero A.zero xs =
      (xs, A.zero, A.zero) := by
  induction xs with
  | nil => rfl
  | cons x xs ih => simp only [biquadLoop, hone, hzero, haddz, ih]

theorem stagesLoop_identity (A : Arith α)
    (hone : ∀ x, A.mul A.one x = x) (hzero : ∀ x, A.mul A.zero x = A.zero)
    (haddz : ∀ x, A.add x A.zero = x) (n : Nat) :
    ∀ (cofs sofs : Nat) (st : Nat → α) (ip op : List α),
    (∀ j, st j = A.zero) → cofs % 5 = 0 →
    (stagesLoop A (identityCoeffs A) st cofs sofs ip op n).out =
      (if n = 0 then op else ip) ∧
    (∀ j, (stagesLoop A (identityCoeffs A) st cofs sofs ip op n).st j = A.zero) := by
  induction n with
  | zero => intro cofs sofs st ip op hst _; exact ⟨rfl, hst⟩
  | succ n ih =>
    intro cofs sofs st ip op hst hco
    have h0 : identityCoeffs A cofs = A.one := by
      simp [identityCoeffs, hco]
    have h1 : identityCoeffs A (cofs + 1) = A.zero := by
      have : (cofs + 1) % 5 ≠ 0 := by omega
      simp [identityCoeffs, this]
    have h2 : identityCoeffs A (cofs + 2) = A.zero := by
      have : (cofs + 2) % 5 ≠ 0 := by omega
      simp [identityCoeffs, this]
    have h3 : identityCoeffs A (cofs + 3) = A.zero := by
      have : (cofs + 3) % 5 ≠ 0 := by omega
      simp [identityCoeffs, this]
    have h4 : identityCoeffs A (cofs + 4) = A.zero := by
      have : (cofs + 4) % 5 ≠ 0 := by omega
      simp [identityCoeffs, this]
    have hrun : biquad_process_f32 A (identityCoeffs A) cofs st sofs ip =
        (ip, fun j => if j = sofs then A.zero else if j = sofs + 1 then A.zero
          else st j) := by
      simp only [biquad_process_f32, h0, h1, h2, h3, h4, hst,
        biquadLoop_identity A hone hzero haddz]
    have hst' : ∀ j, (fun j => if j = sofs then A.zero else if j = sofs + 1
        then A.zero else st j) j = A.zero := by
      intro j
      by_cases hj : j = sofs
      · simp [hj]
      · by_cases hj' : j = sofs + 1 <;> simp [hj, hj', hst j]
    have hco' : (cofs + 5) % 5 = 0 := by omega
    have := ih (cofs + 5) (sofs + 2) _ ip ip hst' hco'
    simp only [stagesLoop, hrun]
    refine ⟨?_, this.2⟩
    rw [this.1]
    simp [ite_self, Nat.succ_ne_zero]

/-- C6: a cascade of `N ≥ 1` stages, each with the identity coefficient block
`{b0 = 1, b1 = 0, b2 = 0, -a1 = 0, -a2 = 0}` and zero-initialised state,
reproduces the input plane exactly, and the state array is still identically
zero afterwards — for every arithmetic in which `1*x = x`, `0*x = 0` and
`x + 0 = x` hold, the laws of the kernel's single-precision constants this
claim relies on. -/
theorem identity_cascade_reproduces_input (A : Arith α)
    (hone : ∀ x, A.mul A.one x = x) (hzero : ∀ x, A.mul A.zero x = A.zero)
    (haddz : ∀ x, A.add x A.zero = x) (N : Nat) (hN : 1 ≤ N)
    (ip op : List α) :
    (stagesLoop A (identityCoeffs A) (fun _ => A.zero) 0 0 ip op N).out = ip ∧
    ∀ j, (stagesLoop A (identityCoeffs A) (fun _ => A.zero) 0 0 ip op N).st j
      = A.zero := by
  have := stagesLoop_identity A hone hzero haddz N 0 0 (fun _ => A.zero) ip op
    (fun _ => rfl) rfl
  exact ⟨by rw [this.1, if_neg (by omega)], this.2⟩

theorem identity_cascade_reproduces_input_witness :
    (stagesLoop intArith (identityCoeffs intArith) (fun _ => intArith.zero)
      0 0 [3, -7, 2] [0, 0, 0] 2).out = [3, -7, 2] :=
  (identity_cascade_reproduces_input intArith (fun x => one_mul x)
    (fun x => zero_mul x) (fun x => add_zero x) 2 (by omega)
    [3, -7, 2] [0, 0, 0]).1

/-! ### Coefficient and state addressing (claim C2)

The spec states the addressing rule as closed-form offsets per channel and
stage; the following two functions and the `Addressed` loops are written from
those words, to be compared with the cursor-threading loops above. -/

/-- The spec's coefficient addressing rule: the 5-float block of stage `s` on
channel `c` starts at flat offset `5*s` under shared coefficients and
`5*(c*S + s)` under independent coefficients. -/
def coeff_offset (share : Bool) (nStages chan stage : Nat) : Nat :=
  if share then 5 * stage else 5 * (chan * nStages + stage)

/-- The spec's state addressing rule: the 2-float block of stage `s` on
channel `c` starts at flat offset `2*(c*S + s)`, independent of the sharing
mode and never reset during a run. -/
def state_offset (nStages chan stage : Nat) : Nat := 2 * (chan * nStages + stage)

/-- The stage loop written with the spec's closed-form offsets: stage `s` of
channel `c` reads its coefficient block at `coeff_offset` and its state block
at `state_offset`, with no cursor state. -/
def stagesAddressed (A : Arith α) (co : Nat → α) (st : Nat → α) (share : Bool)
    (nStages chan : Nat) (inPlane outPlane : List α) (stage : Nat) :
    Nat → List α × (Nat → α)
  | 0 => (outPlane, st)
  | k + 1 =>
    let r := biquad_process_f32 A co (coeff_offset share nStages chan stage) st
        (state_offset nStages chan stage) inPlane
    stagesAddressed A co r.2 share nStages chan r.1 r.1 (stage + 1) k

/-- The channel loop written with the spec's closed-form offsets. -/
def channelsAddressed (A : Arith α) (co : Nat → α) (st : Nat → α)
    (share : Bool) (nStages chan : Nat) :
    List (List α) → List (List α) → List (List α) × (Nat → α)
  | ip :: ips, op :: ops =>
    let r := stagesAddressed A co st share nStages chan ip op 0 nStages
    let rest := channelsAddressed A co r.2 share nStages (chan + 1) ips ops
    (r.1 :: rest.1, rest.2)
  | _, _ => ([], st)

theorem coeff_offset_succ (share : Bool) (S c s : Nat) :
    coeff_offset share S c (s + 1) = coeff_offset share S c s + 5 := by
  cases share <;> simp [coeff_offset] <;> ring

theorem state_offset_succ (S c s : Nat) :
    state_offset S c (s + 1) = state_offset S c s + 2 := by
  simp [state_offset]; ring

theorem stagesLoop_final_cursors (A : Arith α) (co : Nat → α) (n : Nat) :
    ∀ (st : Nat → α) (cofs sofs : Nat) (ip op : List α),
    (stagesLoop A co st cofs sofs ip op n).cofs = cofs + 5 * n ∧
    (stagesLoop A co st cofs sofs ip op n).sofs = sofs + 2 * n := by
  induction n with
  | zero => intro st cofs sofs ip op; simp [stagesLoop]
  | succ n ih =>
    intro st cofs sofs ip op
    simp only [stagesLoop]
    obtain ⟨h1, h2⟩ := ih _ (cofs + 5) (sofs + 2) _ _
    exact ⟨by rw [h1]; ring, by rw [h2]; ring⟩

theorem stagesLoop_eq_addressed (A : Arith α) (co : Nat → α) (share : Bool)
    (S c : Nat) (k : Nat) :
    ∀ (st : Nat → α) (ip op : List α) (s : Nat),
    (stagesLoop A co st (coeff_offset share S c s) (state_offset S c s)
      ip op k).out = (stagesAddressed A co st share S c ip op s k).1 ∧
    (stagesLoop A co st (coeff_offset share S c s) (state_offset S c s)
      ip op k).st = (stagesAddressed A co st share S c ip op s k).2 := by
  induction k with
  | zero => intro st ip op s; exact ⟨rfl, rfl⟩
  | succ k ih =>
    intro st ip op s
    simp only [stagesLoop, stagesAddressed]
    rw [← coeff_offset_succ, ← state_offset_succ]
    exact ih _ _ _ (s + 1)

theorem channelsLoop_eq_addressed (A : Arith α) (co : Nat → α) (share : Bool)
    (S : Nat) (ips : List (List α)) :
    ∀ (ops : List (List α)) (st : Nat → α) (c cofs : Nat),
    (share = false → cofs = 5 * (c * S)) →
    (channelsLoop A co st cofs (2 * (c * S)) share S ips ops).outs =
      (channelsAddressed A co st share S c ips ops).1 ∧
    (channelsLoop A co st cofs (2 * (c * S)) share S ips ops).st =
      (channelsAddressed A co st share S c ips ops).2 := by
  induction ips with
  | nil => intro ops st c cofs _; cases ops <;> exact ⟨rfl, rfl⟩
  | cons ip ips ih =>
    intro ops st c cofs hcofs
    cases ops with
    | nil => exact ⟨rfl, rfl⟩
    | cons op ops =>
      simp only [channelsLoop, channelsAddressed]
      have hc0 : (if share then 0 else cofs) = coeff_offset share S c 0 := by
        cases share with
        | false => simp [coeff_offset, hcofs rfl]
        | true => simp [coeff_offset]
      have hs0 : 2 * (c * S) = state_offset S c 0 := by
        simp [state_offset]
      rw [hc0, hs0]
      obtain ⟨ho, hs⟩ := stagesLoop_eq_addressed A co share S c S st ip op 0
      obtain ⟨hfc, hfs⟩ := stagesLoop_final_cursors A co S st
        (coeff_offset share S c 0) (state_offset S c 0) ip op
      have hsofs : (stagesLoop A co st (coeff_offset share S c 0)
          (state_offset S c 0) ip op S).sofs = 2 * ((c + 1) * S) := by
        rw [hfs]; simp [state_offset]; ring
      have hnext : share = false →
          (stagesLoop A co st (coeff_offset share S c 0)
            (state_offset S c 0) ip op S).cofs = 5 * ((c + 1) * S) := by
        intro hsh
        rw [hfc]
        simp [coeff_offset, hsh]
        ring
      rw [hs, hsofs]
      obtain ⟨ro, rs⟩ := ih ops
        (stagesAddressed A co st share S c ip op 0 S).2 (c + 1)
        ((stagesLoop A co st (coeff_offset share S c 0) (state_offset S c 0)
          ip op S).cofs)
        hnext
      exact ⟨by rw [ho, ro], by rw [rs]⟩

/-- C2: on a validated instance with `S` stages, the kernel's cursor-threaded
double loop equals the loop that addresses, for channel `c` and stage `s`, the
5-float coefficient block at flat offset `5*s` under shared coefficients and
`5*(c*S + s)` under independent coefficients, and always the 2-float state
block at flat offset `2*(c*S + s)` — i.e. the state cursor advances
monotonically over the whole run and is never reset. -/
theorem sosfilt_addressing (A : Arith α) (co st : Nat → α) (share : Bool)
    (S : Nat) (ips ops : List (List α)) :
    (channelsLoop A co st 0 0 share S ips ops).outs =
      (channelsAddressed A co st share S 0 ips ops).1 ∧
    (channelsLoop A co st 0 0 share S ips ops).st =
      (channelsAddressed A co st share S 0 ips ops).2 := by
  have := channelsLoop_eq_addressed A co share S ips ops st 0 0
    (fun _ => by ring)
  simpa using this

/-! ### State continuity across consecutive chunks (claim C5) -/

theorem biquadLoop_append (A : Arith α) (b0 b1 b2 a1 a2 : α) (xs ys : List α) :
    ∀ s1 s2,
    biquadLoop A b0 b1 b2 a1 a2 s1 s2 (xs ++ ys) =
      ((biquadLoop A b0 b1 b2 a1 a2 s1 s2 xs).1 ++
        (biquadLoop A b0 b1 b2 a1 a2
          (biquadLoop A b0 b1 b2 a1 a2 s1 s2 xs).2.1
          (biquadLoop A b0 b1 b2 a1 a2 s1 s2 xs).2.2 ys).1,
       (biquadLoop A b0 b1 b2 a1 a2
          (biquadLoop A b0 b1 b2 a1 a2 s1 s2 xs).2.1
          (biquadLoop A b0 b1 b2 a1 a2 s1 s2 xs).2.2 ys).2) := by
  induction xs with
  | nil => intro s1 s2; simp [biquadLoop]
  | cons x xs ih =>
    intro s1 s2
    simp only [List.cons_append, biquadLoop, List.append_eq, ih]

theorem biquad_process_f32_append (A : Arith α) (co : Nat → α) (cofs : Nat)
    (st : Nat → α) (sofs : Nat) (xs ys : List α) :
    (biquad_process_f32 A co cofs st sofs (xs ++ ys)).1 =
      (biquad_process_f32 A co cofs st sofs xs).1 ++
      (biquad_process_f32 A co cofs (biquad_process_f32 A co cofs st sofs xs).2
        sofs ys).1 ∧
    ∀ j, (biquad_process_f32 A co cofs st sofs (xs ++ ys)).2 j =
      (biquad_process_f32 A co cofs (biquad_process_f32 A co cofs st sofs xs).2
        sofs ys).2 j := by
  have hne : sofs + 1 ≠ sofs := by omega
  constructor
  · simp [biquad_process_f32, biquadLoop_append, hne]
  · intro j
    by_cases h0 : j = sofs
    · simp [biquad_process_f32, biquadLoop_append, h0, hne]
    · by_cases h1 : j = sofs + 1 <;>
        simp [biquad_process_f32, biquadLoop_append, h0, h1, hne]

theorem biquad_process_f32_st_frame (A : Arith α) (co : Nat → α) (cofs : Nat)
    (st : Nat → α) (sofs : Nat) (ip : List α) (j : Nat)
    (h0 : j ≠ sofs) (h1 : j ≠ sofs + 1) :
    (biquad_process_f32 A co cofs st sofs ip).2 j = st j := by
  simp [biquad_process_f32, h0, h1]

theorem biquad_process_f32_congr (A : Arith α) (co : Nat → α) (cofs : Nat)
    (st st' : Nat → α) (sofs : Nat) (ip : List α)
    (h0 : st sofs = st' sofs) (h1 : st (sofs + 1) = st' (sofs + 1)) :
    (biquad_process_f32 A co cofs st sofs ip).1 =
      (biquad_process_f32 A co cofs st' sofs ip).1 ∧
    (biquad_process_f32 A co cofs st sofs ip).2 sofs =
      (biquad_process_f32 A co cofs st' sofs ip).2 sofs ∧
    (biquad_process_f32 A co cofs st sofs ip).2 (sofs + 1) =
      (biquad_process_f32 A co cofs st' sofs ip).2 (sofs + 1) := by
  have hne : sofs + 1 ≠ sofs := by omega
  refine ⟨?_, ?_, ?_⟩ <;> simp [biquad_process_f32, h0, h1, hne]

theorem stagesLoop_st_frame_lo (A : Arith α) (co : Nat → α) (n : Nat) :
    ∀ (st : Nat → α) (cofs sofs : Nat) (ip op : List α) (j : Nat), j < sofs →
    (stagesLoop A co st cofs sofs ip op n).st j = st j := by
  induction n with
  | zero => intro st cofs sofs ip op j _; rfl
  | succ n ih =>
    intro st cofs sofs ip op j hj
    simp only [stagesLoop]
    rw [ih _ (cofs + 5) (sofs + 2) _ _ j (by omega)]
    exact biquad_process_f32_st_frame A co cofs st sofs ip j (by omega) (by omega)

theorem stagesLoop_st_frame_hi (A : Arith α) (co : Nat → α) (n : Nat) :
    ∀ (st : Nat → α) (cofs sofs : Nat) (ip op : List α) (j : Nat),
    sofs + 2 * n ≤ j →
    (stagesLoop A co st cofs sofs ip op n).st j = st j := by
  induction n with
  | zero => intro st cofs sofs ip op j _; rfl
  | succ n ih =>
    intro st cofs sofs ip op j hj
    simp only [stagesLoop]
    rw [ih _ (cofs + 5) (sofs + 2) _ _ j (by omega)]
    exact biquad_process_f32_st_frame A co cofs st sofs ip j (by omega) (by omega)

theorem stagesLoop_congr (A : Arith α) (co : Nat → α) (n : Nat) :
    ∀ (st st' : Nat → α) (cofs sofs : Nat) (ip op : List α),
    (∀ j, sofs ≤ j → j < sofs + 2 * n → st j = st' j) →
    (stagesLoop A co st cofs sofs ip op n).out =
      (stagesLoop A co st' cofs sofs ip op n).out ∧
    ∀ j, sofs ≤ j → j < sofs + 2 * n →
      (stagesLoop A co st cofs sofs ip op n).st j =
        (stagesLoop A co st' cofs sofs ip op n).st j := by
  induction n with
  | zero =>
    intro st st' cofs sofs ip op _
    exact ⟨rfl, fun j hj1 hj2 => absurd hj2 (by omega)⟩
  | succ n ih =>
    intro st st' cofs sofs ip op h
    have hs0 : st sofs = st' sofs := h sofs (Nat.le_refl _) (by omega)
    have hs1 : st (sofs + 1) = st' (sofs + 1) := h _ (by omega) (by omega)
    obtain ⟨hb1, hbs0, hbs1⟩ :=
      biquad_process_f32_congr A co cofs st st' sofs ip hs0 hs1
    have hwin : ∀ j, sofs + 2 ≤ j → j < sofs + 2 + 2 * n →
        (biquad_process_f32 A co cofs st sofs ip).2 j =
          (biquad_process_f32 A co cofs st' sofs ip).2 j := by
      intro j hj1 hj2
      rw [biquad_process_f32_st_frame A co cofs st sofs ip j (by omega) (by omega),
        biquad_process_f32_st_frame A co cofs st' sofs ip j (by omega) (by omega)]
      exact h j (by omega) (by omega)
    simp only [stagesLoop]
    rw [hb1]
    obtain ⟨ho, hw⟩ := ih (biquad_process_f32 A co cofs st sofs ip).2
      (biquad_process_f32 A co cofs st' sofs ip).2 (cofs + 5) (sofs + 2)
      (biquad_process_f32 A co cofs st' sofs ip).1
      (biquad_process_f32 A co cofs st' sofs ip).1 hwin
    refine ⟨ho, ?_⟩
    intro j hj1 hj2
    rcases Nat.lt_or_ge j (sofs + 2) with hj | hj
    · rw [stagesLoop_st_frame_lo A co n _ (cofs + 5) (sofs + 2) _ _ j hj,
        stagesLoop_st_frame_lo A co n _ (cofs + 5) (sofs + 2) _ _ j hj]
      rcases Nat.eq_or_lt_of_le hj1 with hj0 | hj0
      · rw [← hj0]; exact hbs0
      · have hj1' : j = sofs + 1 := by omega
        rw [hj1']; exact hbs1
    · exact hw j hj (by omega)

theorem stagesLoop_append (A : Arith α) (co : Nat → α) (n : Nat) :
    ∀ (st : Nat → α) (cofs sofs : Nat) (i1 i2 o1 o2 : List α),
    (stagesLoop A co st cofs sofs (i1 ++ i2) (o1 ++ o2) n).out =
      (stagesLoop A co st cofs sofs i1 o1 n).out ++
      (stagesLoop A co (stagesLoop A co st cofs sofs i1 o1 n).st
        cofs sofs i2 o2 n).out ∧
    ∀ j, (stagesLoop A co st cofs sofs (i1 ++ i2) (o1 ++ o2) n).st j =
      (stagesLoop A co (stagesLoop A co st cofs sofs i1 o1 n).st
        cofs sofs i2 o2 n).st j := by
  induction n with
  | zero => intro st cofs sofs i1 i2 o1 o2; exact ⟨rfl, fun j => rfl⟩
  | succ n ih =>
    intro st cofs sofs i1 i2 o1 o2
    obtain ⟨hap1, hap2⟩ := biquad_process_f32_append A co cofs st sofs i1 i2
    simp only [stagesLoop]
    set b1 := biquad_process_f32 A co cofs st sofs i1 with hb1def
    set b2 := biquad_process_f32 A co cofs b1.2 sofs i2 with hb2def
    set bF := biquad_process_f32 A co cofs st sofs (i1 ++ i2) with hbFdef
    have hbF2 : bF.2 = b2.2 := funext hap2
    rw [hap1, hbF2]
    set t1 := stagesLoop A co b1.2 (cofs + 5) (sofs + 2) b1.1 b1.1 n with ht1def
    set b2p := biquad_process_f32 A co cofs t1.st sofs i2 with hb2pdef
    obtain ⟨hfo, hfst⟩ := ih b2.2 (cofs + 5) (sofs + 2) b1.1 b2.1 b1.1 b2.1
    set u1 := stagesLoop A co b2.2 (cofs + 5) (sofs + 2) b1.1 b1.1 n with hu1def
    have hwin1 : ∀ j, sofs + 2 ≤ j → j < sofs + 2 + 2 * n → b2.2 j = b1.2 j :=
      fun j hj1 _ =>
        biquad_process_f32_st_frame A co cofs b1.2 sofs i2 j (by omega) (by omega)
    obtain ⟨hc1o, hc1w⟩ := stagesLoop_congr A co n b2.2 b1.2 (cofs + 5)
      (sofs + 2) b1.1 b1.1 hwin1
    have h20 : t1.st sofs = b1.2 sofs :=
      stagesLoop_st_frame_lo A co n b1.2 (cofs + 5) (sofs + 2) b1.1 b1.1 sofs
        (by omega)
    have h21 : t1.st (sofs + 1) = b1.2 (sofs + 1) :=
      stagesLoop_st_frame_lo A co n b1.2 (cofs + 5) (sofs + 2) b1.1 b1.1
        (sofs + 1) (by omega)
    obtain ⟨he1, he2, he3⟩ :=
      biquad_process_f32_congr A co cofs t1.st b1.2 sofs i2 h20 h21
    have hwin2 : ∀ j, sofs + 2 ≤ j → j < sofs + 2 + 2 * n →
        u1.st j = b2p.2 j := by
      intro j hj1 hj2
      rw [hc1w j hj1 hj2,
        biquad_process_f32_st_frame A co cofs t1.st sofs i2 j (by omega) (by omega)]
    obtain ⟨hc2o, hc2w⟩ := stagesLoop_congr A co n u1.st b2p.2 (cofs + 5)
      (sofs + 2) b2.1 b2.1 hwin2
    rw [he1]
    constructor
    · rw [hfo, hc1o, hc2o]
    · intro j
      rw [hfst j]
      rcases Nat.lt_or_ge j (sofs + 2) with hj | hj
      · rw [stagesLoop_st_frame_lo A co n u1.st (cofs + 5) (sofs + 2) b2.1 b2.1 j hj,
          stagesLoop_st_frame_lo A co n b2p.2 (cofs + 5) (sofs + 2) b2.1 b2.1 j hj,
          stagesLoop_st_frame_lo A co n b2.2 (cofs + 5) (sofs + 2) b1.1 b1.1 j hj]
        by_cases hj0 : j = sofs
        · rw [hj0]; exact he2.symm
        by_cases hj1' : j = sofs + 1
        · rw [hj1']; exact he3.symm
        · rw [biquad_process_f32_st_frame A co cofs b1.2 sofs i2 j hj0 hj1',
            biquad_process_f32_st_frame A co cofs t1.st sofs i2 j hj0 hj1',
            stagesLoop_st_frame_lo A co n b1.2 (cofs + 5) (sofs + 2) b1.1 b1.1 j
              (by omega)]
      · rcases Nat.lt_or_ge j (sofs + 2 + 2 * n) with hj2 | hj2
        · exact hc2w j hj hj2
        · rw [stagesLoop_st_frame_hi A co n u1.st (cofs + 5) (sofs + 2) b2.1 b2.1 j
              (by omega),
            stagesLoop_st_frame_hi A co n b2p.2 (cofs + 5) (sofs + 2) b2.1 b2.1 j
              (by omega),
            stagesLoop_st_frame_hi A co n b2.2 (cofs + 5) (sofs + 2) b1.1 b1.1 j
              (by omega),
            biquad_process_f32_st_frame A co cofs b1.2 sofs i2 j (by omega)
              (by omega),
            biquad_process_f32_st_frame A co cofs t1.st sofs i2 j (by omega)
              (by omega),
            stagesLoop_st_frame_hi A co n b1.2 (cofs + 5) (sofs + 2) b1.1 b1.1 j
              (by omega)]

theorem channelsLoop_st_frame_lo (A : Arith α) (co : Nat → α) (share : Bool)
    (S : Nat) (ips : List (List α)) :
    ∀ (ops : List (List α)) (st : Nat → α) (cofs sofs : Nat) (j : Nat),
    j < sofs →
    (channelsLoop A co st cofs sofs share S ips ops).st j = st j := by
  induction ips with
  | nil => intro ops st cofs sofs j hj; cases ops <;> rfl
  | cons ip ips ih =>
    intro ops st cofs sofs j hj
    cases ops with
    | nil => rfl
    | cons op ops =>
      simp only [channelsLoop]
      have hs := (stagesLoop_final_cursors A co S st
        (if share then 0 else cofs) sofs ip op).2
      rw [ih ops _ _ _ j (by rw [hs]; omega)]
      exact stagesLoop_st_frame_lo A co S st _ sofs ip op j hj

theorem channelsLoop_congr (A : Arith α) (co : Nat → α) (share : Bool)
    (S : Nat) (ips : List (List α)) :
    ∀ (ops : List (List α)) (st st' : Nat → α) (cofs sofs : Nat),
    (∀ j, sofs ≤ j → st j = st' j) →
    (channelsLoop A co st cofs sofs share S ips ops).outs =
      (channelsLoop A co st' cofs sofs share S ips ops).outs ∧
    ∀ j, sofs ≤ j →
      (channelsLoop A co st cofs sofs share S ips ops).st j =
        (channelsLoop A co st' cofs sofs share S ips ops).st j := by
  induction ips with
  | nil =>
    intro ops st st' cofs sofs h
    cases ops <;> exact ⟨rfl, fun j hj => h j hj⟩
  | cons ip ips ih =>
    intro ops st st' cofs sofs h
    cases ops with
    | nil => exact ⟨rfl, fun j hj => h j hj⟩
    | cons op ops =>
      simp only [channelsLoop]
      obtain ⟨ho, hw⟩ := stagesLoop_congr A co S st st'
        (if share then 0 else cofs) sofs ip op (fun j hj1 _ => h j hj1)
      have hc := stagesLoop_final_cursors A co S st
        (if share then 0 else cofs) sofs ip op
      have hc' := stagesLoop_final_cursors A co S st'
        (if share then 0 else cofs) sofs ip op
      rw [hc.1, hc.2, hc'.1, hc'.2]
      have hrest : ∀ j, sofs + 2 * S ≤ j →
          (stagesLoop A co st (if share then 0 else cofs) sofs ip op S).st j =
          (stagesLoop A co st' (if share then 0 else cofs) sofs ip op S).st j := by
        intro j hj
        rw [stagesLoop_st_frame_hi A co S st (if share then 0 else cofs) sofs
            ip op j hj,
          stagesLoop_st_frame_hi A co S st' (if share then 0 else cofs) sofs
            ip op j hj]
        exact h j (by omega)
      obtain ⟨hro, hrw⟩ := ih ops _ _
        ((if share then 0 else cofs) + 5 * S) (sofs + 2 * S) hrest
      refine ⟨by rw [ho, hro], ?_⟩
      intro j hj
      rcases Nat.lt_or_ge j (sofs + 2 * S) with hj2 | hj2
      · rw [channelsLoop_st_frame_lo A co share S ips ops _ _ _ j hj2,
          channelsLoop_st_frame_lo A co share S ips ops _ _ _ j hj2]
        exact hw j hj hj2
      · exact hrw j hj2

theorem channelsLoop_append (A : Arith α) (co : Nat → α) (share : Bool)
    (S : Nat) (i1s : List (List α)) :
    ∀ (i2s o1s o2s : List (List α)) (st : Nat → α) (cofs sofs : Nat),
    i1s.length = i2s.length → o1s.length = i1s.length →
    o2s.length = i2s.length →
    (channelsLoop A co st cofs sofs share S (List.zipWith (· ++ ·) i1s i2s)
      (List.zipWith (· ++ ·) o1s o2s)).outs =
      List.zipWith (· ++ ·)
        (channelsLoop A co st cofs sofs share S i1s o1s).outs
        (channelsLoop A co (channelsLoop A co st cofs sofs share S i1s o1s).st
          cofs sofs share S i2s o2s).outs ∧
    ∀ j, (channelsLoop A co st cofs sofs share S (List.zipWith (· ++ ·) i1s i2s)
      (List.zipWith (· ++ ·) o1s o2s)).st j =
      (channelsLoop A co (channelsLoop A co st cofs sofs share S i1s o1s).st
        cofs sofs share S i2s o2s).st j := by
  induction i1s with
  | nil =>
    intro i2s o1s o2s st cofs sofs h1 h2 h3
    cases i2s with
    | cons i2 i2s => simp at h1
    | nil =>
      cases o1s with
      | cons o1 o1s => simp at h2
      | nil =>
        cases o2s with
        | cons o2 o2s => simp at h3
        | nil => exact ⟨rfl, fun j => rfl⟩
  | cons i1 i1s ih =>
    intro i2s o1s o2s st cofs sofs h1 h2 h3
    cases i2s with
    | nil => simp at h1
    | cons i2 i2s =>
    cases o1s with
    | nil => simp at h2
    | cons o1 o1s =>
    cases o2s with
    | nil => simp at h3
    | cons o2 o2s =>
    simp only [List.zipWith_cons_cons, channelsLoop]
    set c0 := if share then (0 : Nat) else cofs with hc0
    have hfc := stagesLoop_final_cursors A co S st c0 sofs (i1 ++ i2) (o1 ++ o2)
    have ht1c := stagesLoop_final_cursors A co S st c0 sofs i1 o1
    rw [hfc.1, hfc.2, ht1c.1, ht1c.2]
    have hw2c := stagesLoop_final_cursors A co S (channelsLoop A co (stagesLoop A co st c0 sofs i1 o1 S).st (c0 + 5 * S) (sofs + 2 * S) share S i1s o1s).st c0 sofs i2 o2
    rw [hw2c.1, hw2c.2]
    obtain ⟨hsa_o, hsa_st⟩ := stagesLoop_append A co S st c0 sofs i1 i2 o1 o2
    have hfh_st : (stagesLoop A co st c0 sofs (i1 ++ i2) (o1 ++ o2) S).st =
        (stagesLoop A co (stagesLoop A co st c0 sofs i1 o1 S).st c0 sofs i2 o2 S).st := funext hsa_st
    rw [hsa_o, hfh_st]
    obtain ⟨hIHo, hIHst⟩ := ih i2s o1s o2s (stagesLoop A co (stagesLoop A co st c0 sofs i1 o1 S).st c0 sofs i2 o2 S).st
      (c0 + 5 * S) (sofs + 2 * S)
      (by simpa using h1) (by simpa using h2) (by simpa using h3)
    have hf1hyp : ∀ j, sofs + 2 * S ≤ j → (stagesLoop A co (stagesLoop A co st c0 sofs i1 o1 S).st c0 sofs i2 o2 S).st j = (stagesLoop A co st c0 sofs i1 o1 S).st j :=
      fun j hj => stagesLoop_st_frame_hi A co S (stagesLoop A co st c0 sofs i1 o1 S).st c0 sofs i2 o2 j hj
    obtain ⟨hF1o, hF1w⟩ := channelsLoop_congr A co share S i1s o1s
      (stagesLoop A co (stagesLoop A co st c0 sofs i1 o1 S).st c0 sofs i2 o2 S).st (stagesLoop A co st c0 sofs i1 o1 S).st (c0 + 5 * S) (sofs + 2 * S) hf1hyp
    have hf2hyp : ∀ j, sofs ≤ j → j < sofs + 2 * S →
        (channelsLoop A co (stagesLoop A co st c0 sofs i1 o1 S).st (c0 + 5 * S) (sofs + 2 * S) share S i1s o1s).st j = (stagesLoop A co st c0 sofs i1 o1 S).st j :=
      fun j _ hj2 => channelsLoop_st_frame_lo A co share S i1s o1s
        (stagesLoop A co st c0 sofs i1 o1 S).st (c0 + 5 * S) (sofs + 2 * S) j hj2
    obtain ⟨hF2o, hF2w⟩ := stagesLoop_congr A co S
      (channelsLoop A co (stagesLoop A co st c0 sofs i1 o1 S).st (c0 + 5 * S) (sofs + 2 * S) share S i1s o1s).st (stagesLoop A co st c0 sofs i1 o1 S).st c0 sofs i2 o2 hf2hyp
    have hf3hyp : ∀ j, sofs + 2 * S ≤ j → (channelsLoop A co (stagesLoop A co (stagesLoop A co st c0 sofs i1 o1 S).st c0 sofs i2 o2 S).st (c0 + 5 * S) (sofs + 2 * S) share S i1s o1s).st j = (stagesLoop A co (channelsLoop A co (stagesLoop A co st c0 sofs i1 o1 S).st (c0 + 5 * S) (sofs + 2 * S) share S i1s o1s).st c0 sofs i2 o2 S).st j := by
      intro j hj
      rw [hF1w j hj,
        stagesLoop_st_frame_hi A co S (channelsLoop A co (stagesLoop A co st c0 sofs i1 o1 S).st (c0 + 5 * S) (sofs + 2 * S) share S i1s o1s).st c0 sofs i2 o2 j hj]
    obtain ⟨hF3o, hF3w⟩ := channelsLoop_congr A co share S i2s o2s
      (channelsLoop A co (stagesLoop A co (stagesLoop A co st c0 sofs i1 o1 S).st c0 sofs i2 o2 S).st (c0 + 5 * S) (sofs + 2 * S) share S i1s o1s).st (stagesLoop A co (channelsLoop A co (stagesLoop A co st c0 sofs i1 o1 S).st (c0 + 5 * S) (sofs + 2 * S) share S i1s o1s).st c0 sofs i2 o2 S).st (c0 + 5 * S) (sofs + 2 * S) hf3hyp
    constructor
    · rw [hIHo, hF1o, hF3o, hF2o]
    · intro j
      rw [hIHst j]
      rcases Nat.lt_or_ge j (sofs + 2 * S) with hj | hj
      · rw [channelsLoop_st_frame_lo A co share S i2s o2s
            (channelsLoop A co (stagesLoop A co (stagesLoop A co st c0 sofs i1 o1 S).st c0 sofs i2 o2 S).st (c0 + 5 * S) (sofs + 2 * S) share S i1s o1s).st (c0 + 5 * S) (sofs + 2 * S) j hj,
          channelsLoop_st_frame_lo A co share S i1s o1s
            (stagesLoop A co (stagesLoop A co st c0 sofs i1 o1 S).st c0 sofs i2 o2 S).st (c0 + 5 * S) (sofs + 2 * S) j hj,
          channelsLoop_st_frame_lo A co share S i2s o2s
            (stagesLoop A co (channelsLoop A co (stagesLoop A co st c0 sofs i1 o1 S).st (c0 + 5 * S) (sofs + 2 * S) share S i1s o1s).st c0 sofs i2 o2 S).st (c0 + 5 * S) (sofs + 2 * S) j hj]
        rcases Nat.lt_or_ge j sofs with hjs | hjs
        · rw [stagesLoop_st_frame_lo A co S (stagesLoop A co st c0 sofs i1 o1 S).st c0 sofs i2 o2 j hjs,
            stagesLoop_st_frame_lo A co S (channelsLoop A co (stagesLoop A co st c0 sofs i1 o1 S).st (c0 + 5 * S) (sofs + 2 * S) share S i1s o1s).st c0 sofs i2 o2 j hjs,
            channelsLoop_st_frame_lo A co share S i1s o1s
              (stagesLoop A co st c0 sofs i1 o1 S).st (c0 + 5 * S) (sofs + 2 * S) j (by omega)]
        · exact (hF2w j hjs hj).symm
      · exact hF3w j hj

/-- C5: running the cascaded multichannel filter on a first chunk of frames
and then, from the resulting state, on a second chunk, yields per channel
exactly the concatenation of the outputs of one run over the concatenated
chunks, and the same final state array — for every coefficient array, initial
state, sharing mode and stage count. -/
theorem sosfilt_chunk_continuity (A : Arith α) (co st : Nat → α)
    (share : Bool) (S : Nat) (i1s i2s o1s o2s : List (List α))
    (h1 : i1s.length = i2s.length) (h2 : o1s.length = i1s.length)
    (h3 : o2s.length = i2s.length) :
    (channelsLoop A co st 0 0 share S (List.zipWith (· ++ ·) i1s i2s)
      (List.zipWith (· ++ ·) o1s o2s)).outs =
      List.zipWith (· ++ ·)
        (channelsLoop A co st 0 0 share S i1s o1s).outs
        (channelsLoop A co (channelsLoop A co st 0 0 share S i1s o1s).st
          0 0 share S i2s o2s).outs ∧
    (channelsLoop A co st 0 0 share S (List.zipWith (· ++ ·) i1s i2s)
      (List.zipWith (· ++ ·) o1s o2s)).st =
      (channelsLoop A co (channelsLoop A co st 0 0 share S i1s o1s).st
        0 0 share S i2s o2s).st :=
  ⟨(channelsLoop_append A co share S i1s i2s o1s o2s st 0 0 h1 h2 h3).1,
   funext (channelsLoop_append A co share S i1s i2s o1s o2s st 0 0 h1 h2 h3).2⟩

theorem sosfilt_chunk_continuity_witness :
    (channelsLoop intArith (fun i => (i : Int)) (fun _ => (0 : Int)) 0 0 false 1
      (List.zipWith (· ++ ·) [[1], [2]] [[3], [4]])
      (List.zipWith (· ++ ·) [[0], [0]] [[0], [0]])).outs =
      List.zipWith (· ++ ·)
        (channelsLoop intArith (fun i => (i : Int)) (fun _ => (0 : Int))
          0 0 false 1 [[1], [2]] [[0], [0]]).outs
        (channelsLoop intArith (fun i => (i : Int))
          (channelsLoop intArith (fun i => (i : Int)) (fun _ => (0 : Int))
            0 0 false 1 [[1], [2]] [[0], [0]]).st
          0 0 false 1 [[3], [4]] [[0], [0]]).outs :=
  (sosfilt_chunk_continuity intArith (fun i => (i : Int)) (fun _ => (0 : Int))
    false 1 [[1], [2]] [[3], [4]] [[0], [0]] [[0], [0]] rfl rfl rfl).1

/-! ## The kernel entry point `spark_sosfilt_f32` (claim C3) -/

def SPARK_SOSFILT_INDEPENDENT_SOS : Nat := 0
def SPARK_SOSFILT_SHARE_SOS : Nat := 1

/-- `spark_sosfilt_f32` as compiled in a release build (`NDEBUG`: every
`assert` is a no-op).  The `spark_sosfilt_f32_t` instance is passed as its
fields; the data pointers `coefficients`/`states` are `Option`s of flat
arrays (`none` = NULL), and the planar sample buffers are the lists of
channel planes that the validated header describes (`inPlanes` the input
data, `outPlanes` the current contents of the output buffer).

Control flow of the C body with asserts erased: the internal
`spark_block_validate` call guards an early return that leaves the output
buffer and the state untouched; the subsequent
`assert(self->coefficients && self->states && (self->n_stages > 0))`
guards nothing in a release build.  With a zero stage count the loop body
never executes, so nothing is written; otherwise the first
`biquad_process_f32` call dereferences the coefficient and state pointers
(validation success guarantees at least one channel), which for a NULL
pointer is undefined behavior, modelled as `none`. -/
def spark_sosfilt_f32 (A : Arith α) (header : spark_block_t)
    (coefficients : Option (Nat → α)) (states : Option (Nat → α))
    (n_stages : Nat) (flags : Nat) (inPlanes outPlanes : List (List α)) :
    Option (List (List α) × Option (Nat → α)) :=
  let status := spark_block_validate (some header)
    (SPARK_FMT_F32 ||| SPARK_LAYOUT_PLANAR ||| SPARK_BLOCK_PROCESS)
  if status ≠ SPARK_NOERROR then some (outPlanes, states)
  else if n_stages = 0 then some (outPlanes, states)
  else
    match coefficients, states with
    | some co, some st =>
      some ((channelsLoop A co st 0 0
          (flags &&& SPARK_SOSFILT_SHARE_SOS != 0) n_stages
          inPlanes outPlanes).outs,
        some (channelsLoop A co st 0 0
          (flags &&& SPARK_SOSFILT_SHARE_SOS != 0) n_stages
          inPlanes outPlanes).st)
    | _, _ => none

/-- C3, settled against the code: on a block that fails the internal
validation the release build does return with the output buffer and state
untouched (second conjunct, an ABI-mismatched header), but on a NULL
coefficients pointer with a validated header and a non-zero stage count it
does NOT return early — the null check sits only inside an `assert` that
`NDEBUG` erases, so the kernel dereferences the NULL pointer (first
conjunct, undefined behavior modelled as `none`). -/
theorem sosfilt_release_null_coefficients_crashes :
    spark_sosfilt_f32 intArith blkF32P none (some fun _ => (0 : Int)) 1 0
      [[5]] [[7]] = none ∧
    spark_sosfilt_f32 intArith ⟨2, sizeof_spark_block_t, bufF32P, bufF32P⟩
      none (some fun _ => (0 : Int)) 1 0 [[5]] [[7]] =
      some ([[7]], some fun _ => (0 : Int)) :=
  ⟨rfl, rfl⟩

end Spark
